import Mathlib

/-!
Verification development for the lab2d data-collection scripts.

The repository has two components:
* `generation_script.py` (the Dispatcher): computes a per-thread quota,
  creates per-thread directories and shells out one collection command per
  thread index.
* `random_agent.py` (the Collector): builds a random agent from an action
  spec, drives episodes against the environment, accumulates five per-step
  sequences and persists an episode once the accumulated action list is
  long enough.

The definitions below are a shallow embedding of that code.  The external
numpy random source is modelled as a deterministic stream of raw natural
draws indexed by a cursor; each sampler consumes one draw and advances the
cursor, mirroring the single shared `np.random.RandomState` instance.
-/

namespace Lab2d

/-! ## Dispatcher (`generation_script.py`) -/

/-- Per-thread quota computed in `__main__`: `rpt = args.rollouts // args.threads + 1`. -/
def rpt (rollouts threads : Nat) : Nat := rollouts / threads + 1

/-- Directory created by `_threaded_generation`: `join(args.rootdir, 'thread_<i>')`. -/
def thread_dir (rootdir : String) (i : Nat) : String :=
  rootdir ++ "/thread_" ++ toString i

/-- The command list built by `_threaded_generation(args, rpt, i)`.  It takes the
same inputs as the Python function (total rollouts, the quota `rpt`, the thread
index `i`) and, exactly as in the source, uses only `args.rollouts` in the
`--num_episodes` flag. -/
def threaded_generation_cmd (rollouts rpt_arg i : Nat) : List String :=
  ["bazel", "run", "-c", "opt", "random_agent", "--",
   "--level_name=chase_eat", "--num_episodes=" ++ toString rollouts]

/-! ## Collector data model (`random_agent.py`) -/

/-- Dtype of one action channel of the environment's action spec. -/
inductive DType
  | int32
  | float64
  | other

/-- One entry of the environment action spec: a named channel with a dtype and
integer bounds (only the bounds of supported channels are ever read). -/
structure ActionSpecEntry where
  name : String
  dtype : DType
  minimum : Int
  maximum : Int

/-- A sampled action value.  `_make_float64_distribution` values are kept
abstract as the raw draw together with the bounds. -/
inductive ActVal
  | intV (v : Int)
  | floatV (draw : Nat) (minimum maximum : Int)

/-- A defunctionalised sampler closure: `_make_int32_distribution` or
`_make_float64_distribution` closed over the channel bounds. -/
inductive Gen
  | int32 (minimum maximum : Int)
  | float64 (minimum maximum : Int)

/-- Run one sampler against the shared random stream at cursor `idx`.
`_make_int32_distribution` calls `random.randint(minimum, maximum + 1)`,
uniform over `[minimum, maximum]`; it is modelled as `minimum + raw % (maximum
+ 1 - minimum)`.  Every call consumes exactly one raw draw. -/
def Gen.sample (stream : Nat → Nat) : Gen → Nat → ActVal × Nat
  | .int32 lo hi, idx => (.intV (lo + (stream idx : Int) % (hi + 1 - lo)), idx + 1)
  | .float64 lo hi, idx => (.floatV (stream idx) lo hi, idx + 1)

/-- The `self._actions` list and the skipped (warned-about) entries built by the
loop in `PyGameRandomAgent.__init__`: int32 and float64 channels get a sampler
with the channel's bounds, anything else is skipped with a printed warning. -/
def agent_actions : List ActionSpecEntry → List (String × Gen) × List ActionSpecEntry
  | [] => ([], [])
  | e :: rest =>
    let p := agent_actions rest
    match e.dtype with
    | .int32 => ((e.name, Gen.int32 e.minimum e.maximum) :: p.1, p.2)
    | .float64 => ((e.name, Gen.float64 e.minimum e.maximum) :: p.1, p.2)
    | .other => (p.1, e :: p.2)

/-- `PyGameRandomAgent.step`: `{name: gen() for name, gen in self._actions}`.
The generators are called in list order, each advancing the shared stream
cursor. -/
def agent_step (stream : Nat → Nat) : List (String × Gen) → Nat → List (String × ActVal) × Nat
  | [], idx => ([], idx)
  | (n, g) :: rest, idx =>
    let vp := g.sample stream idx
    let mp := agent_step stream rest vp.2
    ((n, vp.1) :: mp.1, mp.2)

/-- One timestep as returned by the environment wrapper: reward (None on the
reset step), discount, `step_type.value`, the observation mapping from channel
name to frame, and `last()`.  Frames are abstracted as naturals. -/
structure Timestep where
  reward : Option Int
  discount : Int
  step_type : Nat
  observation : String → Option Nat
  is_last : Bool

/-- The five rollout lists accumulated by `_run` for one episode attempt. -/
structure Buffers where
  s_rollout : List Nat
  r_rollout : List (Option Int)
  d_rollout : List Int
  a_rollout : List ActVal
  t_rollout : List Nat

/-- The buffer state right after `env.reset()` (and after a too-short discard):
all five lists empty. -/
def empty_buffers : Buffers := ⟨[], [], [], [], []⟩

/-- The two key errors `_run` can hit: `timestep.observation['WORLD.RGB']` and
`action["MOVE"]`. -/
inductive RunErr
  | key_error_obs
  | key_error_move

/-- Outcome of driving one episode attempt (one reset-to-terminal stretch of
the while loop): the episode was kept (persisted), discarded as too short, the
process aborted on a key error, or the scripted environment ran out of steps
before a terminal (a model artifact for finite scripts). -/
inductive AttemptResult
  | kept (b : Buffers) (idx : Nat)
  | short (discarded : Buffers) (idx : Nat)
  | err (e : RunErr)
  | ran_out (idx : Nat)

/-- The body of the while loop of `_run` over one episode attempt, reading the
environment's successive `env.step` results from the script `sc`.  Each
iteration samples an action map, appends the five per-step entries, and on a
terminal step samples once more (discarding the value) and appends
`action["MOVE"]` a second time before the `len(a_rollout) <= 1000` test. -/
def run_attempt (stream : Nat → Nat) (acts : List (String × Gen)) :
    List Timestep → Nat → Buffers → AttemptResult
  | [], idx, _ => .ran_out idx
  | ts :: rest, idx, buf =>
    let ap := agent_step stream acts idx
    match ts.observation "WORLD.RGB" with
    | none => .err .key_error_obs
    | some obs =>
      match ap.1.lookup "MOVE" with
      | none => .err .key_error_move
      | some mv =>
        let buf1 : Buffers :=
          { s_rollout := buf.s_rollout ++ [obs]
            r_rollout := buf.r_rollout ++ [ts.reward]
            d_rollout := buf.d_rollout ++ [ts.discount]
            a_rollout := buf.a_rollout ++ [mv]
            t_rollout := buf.t_rollout ++ [ts.step_type] }
        if ts.is_last then
          let ep := agent_step stream acts ap.2
          let buf2 : Buffers := { buf1 with a_rollout := buf1.a_rollout ++ [mv] }
          if buf2.a_rollout.length ≤ 1000 then .short buf2 ep.2
          else .kept buf2 ep.2
        else run_attempt stream acts rest ap.2 buf1

/-- Outcome of one iteration of the `for i in range(num_episodes)` loop: an
archive was saved for this episode index, or the process aborted. -/
inductive SlotResult
  | saved (b : Buffers) (idx : Nat) (rest : List (List Timestep))
  | errored (e : RunErr)
  | ran_out (idx : Nat)

/-- One episode slot of `_run`: attempts are retried (lines 195 to 203 reset the
five lists to empty and reset the environment) until one is long enough to be
saved.  `scripts` supplies the environment's step results for the successive
attempts. -/
def run_slot (stream : Nat → Nat) (acts : List (String × Gen)) :
    List (List Timestep) → Nat → Buffers → SlotResult
  | [], idx, _ => .ran_out idx
  | sc :: rest, idx, buf =>
    match run_attempt stream acts sc idx buf with
    | .kept b idx2 => .saved b idx2 rest
    | .short _ idx2 => run_slot stream acts rest idx2 empty_buffers
    | .err e => .errored e
    | .ran_out idx2 => .ran_out idx2

/-- The `for i in range(num_episodes)` loop of `_run`: each saved archive is
recorded with its episode index `i` (the `rollout_<i>` file name); a key error
or script exhaustion aborts the loop. -/
def run_episodes (stream : Nat → Nat) (acts : List (String × Gen)) :
    Nat → Nat → List (List Timestep) → Nat → List (Nat × Buffers)
  | 0, _, _, _ => []
  | count + 1, i, scripts, idx =>
    match run_slot stream acts scripts idx empty_buffers with
    | .saved b idx2 rest => (i, b) :: run_episodes stream acts count (i + 1) rest idx2
    | _ => []

/-- Model of the external `np.random.RandomState(seed)` raw draw stream: a
concrete deterministic function of the seed and the draw cursor.  The agent
creates it exactly once, in `PyGameRandomAgent.__init__`, from the agent
seed. -/
def random_state (seed : Nat) : Nat → Nat :=
  fun n => (seed * 1103515245 + n * 12345 + 12345) % 2147483648

/-- The whole collection run of `_run`: one random source built once from the
agent seed, one `self._actions` list built once from the action spec, then the
episode loop. -/
def run_collector (agent_seed : Nat) (spec : List ActionSpecEntry)
    (num_episodes : Nat) (scripts : List (List Timestep)) : List (Nat × Buffers) :=
  run_episodes (random_state agent_seed) (agent_actions spec).1 num_episodes 0 scripts 0

/-- The hardcoded archive directory of `_run`, keyed only by the environment
seed: `/Users/qingshi/docs/Projects/sp24/lab2d/chase_eat_may8/thread_<env_seed>`. -/
def archive_dir (env_seed : Int) : String :=
  "/Users/qingshi/docs/Projects/sp24/lab2d/chase_eat_may8/thread_" ++ toString env_seed

/-- Modelled from the spec: the Collector CLI defines `--env_seed` with
argparse default `0`, and the Dispatcher's spawned command line passes no
`--env_seed` flag (see `threaded_generation_cmd`), so the Collector spawned for
any thread index `i` runs with `env_seed = 0` and writes its archives under
`archive_dir 0`.  The argparse defaulting itself is the part not present under
`src/` as repository logic. -/
def spawned_archive_dir (i : Nat) : String := archive_dir 0

/-- The prefix of a script consumed by the while loop: everything up to and
including the first terminal timestep. -/
def taken : List Timestep → List Timestep
  | [] => []
  | ts :: rest => if ts.is_last then [ts] else ts :: taken rest

/-- The `a_rollout` contents produced by one attempt as a function of the
attempt's own script (and the stream cursor at its start): one `MOVE` value per
step, with the terminal step's value repeated. -/
def move_list (stream : Nat → Nat) (acts : List (String × Gen)) :
    Nat → List Timestep → List ActVal
  | _, [] => []
  | idx, ts :: rest =>
    let ap := agent_step stream acts idx
    match ap.1.lookup "MOVE" with
    | none => []
    | some mv => if ts.is_last then [mv, mv] else mv :: move_list stream acts ap.2 rest

/-- The observation restriction performed by `dmlab2d.Environment(lab2d,
[args.observation], ...)`: the wrapper exposes exactly the one requested
channel. -/
def restrict_obs (chan : String) (obs : String → Option Nat) : String → Option Nat :=
  fun s => if s = chan then obs s else none

/-- A timestep as seen through the wrapper built with observation channel
`chan`. -/
def wrap_timestep (chan : String) (ts : Timestep) : Timestep :=
  { ts with observation := restrict_obs chan ts.observation }

/-- A whole script seen through the wrapper built with observation channel
`chan` (the `--observation` flag). -/
def wrap_script (chan : String) (sc : List Timestep) : List Timestep :=
  sc.map (wrap_timestep chan)

/-- Two timesteps of the same shape: same terminal flag, and both carrying a
WORLD.RGB frame.  Rewards, discounts and frame contents may differ freely. -/
def same_shape (t1 t2 : Timestep) : Prop :=
  t1.is_last = t2.is_last ∧
    (t1.observation "WORLD.RGB").isSome ∧ (t2.observation "WORLD.RGB").isSome

/-- Agreement of two attempt results on everything the action sequence can
see: same outcome kind, same action list, same final stream cursor. -/
def AttemptResult.acts_eq : AttemptResult → AttemptResult → Prop
  | .kept b1 i1, .kept b2 i2 => b1.a_rollout = b2.a_rollout ∧ i1 = i2
  | .short b1 i1, .short b2 i2 => b1.a_rollout = b2.a_rollout ∧ i1 = i2
  | .err e1, .err e2 => e1 = e2
  | .ran_out i1, .ran_out i2 => i1 = i2
  | _, _ => False

/-- Agreement of two slot results on the action data: same outcome kind, same
saved action list, same cursor, and remaining scripts still of the same
shape. -/
def SlotResult.acts_eq : SlotResult → SlotResult → Prop
  | .saved b1 i1 r1, .saved b2 i2 r2 =>
      b1.a_rollout = b2.a_rollout ∧ i1 = i2 ∧
        List.Forall₂ (List.Forall₂ same_shape) r1 r2
  | .errored e1, .errored e2 => e1 = e2
  | .ran_out i1, .ran_out i2 => i1 = i2
  | _, _ => False

/-! ## Concrete fixtures: a constant stream, a single MOVE channel, and
scripted episodes of a chosen length. -/

/-- A concrete raw-draw stream that always yields 0. -/
def stream0 : Nat → Nat := fun _ => 0

/-- A concrete action spec with a single bounded int32 MOVE channel. -/
def spec0 : List ActionSpecEntry := [⟨"MOVE", DType.int32, 0, 4⟩]

/-- The sampler list the agent builds from `spec0`. -/
def acts0 : List (String × Gen) := [("MOVE", Gen.int32 0 4)]

/-- The MOVE value sampled from the constant-zero stream. -/
def mv0 : ActVal := ActVal.intV 0

/-- A non-terminal scripted timestep carrying a WORLD.RGB frame. -/
def mid_ts : Timestep :=
  { reward := some 0
    discount := 1
    step_type := 1
    observation := fun s => if s = "WORLD.RGB" then some 7 else none
    is_last := false }

/-- A terminal scripted timestep carrying a WORLD.RGB frame. -/
def end_ts : Timestep :=
  { mid_ts with is_last := true, step_type := 2 }

/-- A scripted episode attempt of `n` non-terminal steps followed by one
terminal step (so `n + 1` recorded steps in total). -/
def mk_script (n : Nat) : List Timestep :=
  List.replicate n mid_ts ++ [end_ts]

/-- The buffers accumulated by one full pass over `mk_script n` starting from
`buf`: `n + 1` recorded steps plus the duplicated terminal MOVE value. -/
def final_buffers (buf : Buffers) (n : Nat) : Buffers :=
  { s_rollout := buf.s_rollout ++ List.replicate (n + 1) 7
    r_rollout := buf.r_rollout ++ List.replicate (n + 1) (some 0)
    d_rollout := buf.d_rollout ++ List.replicate (n + 1) 1
    a_rollout := buf.a_rollout ++ List.replicate (n + 2) mv0
    t_rollout := buf.t_rollout ++ (List.replicate n 1 ++ [2]) }

/-- A spec with one unsupported channel ahead of the MOVE channel. -/
def specW : List ActionSpecEntry :=
  [⟨"PUSH", DType.other, 0, 0⟩, ⟨"MOVE", DType.int32, 0, 4⟩]

/-- A spec whose only supported channel is not named MOVE. -/
def spec_jump : List ActionSpecEntry := [⟨"JUMP", DType.int32, 0, 1⟩]

/-- A non-terminal scripted timestep with a different frame and reward than
`mid_ts` but the same shape. -/
def mid_ts2 : Timestep :=
  { reward := some 1
    discount := 1
    step_type := 1
    observation := fun s => if s = "WORLD.RGB" then some 9 else none
    is_last := false }

/-- A terminal scripted timestep with the same shape as `end_ts` but different
contents. -/
def end_ts2 : Timestep :=
  { mid_ts2 with is_last := true, step_type := 2 }

/-- A second scripted episode of the same shape as `mk_script n` with different
frame and reward contents. -/
def mk_script2 (n : Nat) : List Timestep :=
  List.replicate n mid_ts2 ++ [end_ts2]

theorem agent_step_stream0 (idx : Nat) :
    agent_step stream0 acts0 idx = ([("MOVE", mv0)], idx + 1) := by
  simp [agent_step, acts0, Gen.sample, stream0, mv0]

/-- Closed form of one attempt over `mk_script n` under the constant-zero
stream and the single MOVE channel: the attempt is discarded as short exactly
when the accumulated action list (initial contents plus `n + 2` fresh entries)
has at most 1000 entries, and kept otherwise. -/
theorem run_attempt_mk_script (n : Nat) : ∀ (idx : Nat) (buf : Buffers),
    run_attempt stream0 acts0 (mk_script n) idx buf =
      if buf.a_rollout.length + (n + 2) ≤ 1000 then
        AttemptResult.short (final_buffers buf n) (idx + n + 2)
      else AttemptResult.kept (final_buffers buf n) (idx + n + 2) := by
  induction n with
  | zero =>
    intro idx buf
    simp only [mk_script, List.replicate, List.nil_append, run_attempt,
      agent_step_stream0, end_ts, mid_ts]
    simp [run_attempt, final_buffers, List.replicate, mv0]
  | succ n ih =>
    intro idx buf
    have hs : mk_script (n + 1) = mid_ts :: mk_script n := by
      simp [mk_script, List.replicate_succ]
    rw [hs]
    simp only [run_attempt, agent_step_stream0, mid_ts, beq_self_eq_true]
    simp only [Bool.false_eq_true, if_false, if_true]
    have hlk : List.lookup "MOVE" [("MOVE", mv0)] = some mv0 := rfl
    simp only [hlk]
    rw [ih]
    have hfb : final_buffers
        { s_rollout := buf.s_rollout ++ [7]
          r_rollout := buf.r_rollout ++ [some 0]
          d_rollout := buf.d_rollout ++ [(1 : Int)]
          a_rollout := buf.a_rollout ++ [mv0]
          t_rollout := buf.t_rollout ++ [1] } n = final_buffers buf (n + 1) := by
      simp [final_buffers, List.replicate_succ, List.append_assoc]
    have hidx : idx + 1 + n + 2 = idx + (n + 1) + 2 := by omega
    rw [hfb, hidx]
    have hc : ({ s_rollout := buf.s_rollout ++ [7]
                 r_rollout := buf.r_rollout ++ [some 0]
                 d_rollout := buf.d_rollout ++ [(1 : Int)]
                 a_rollout := buf.a_rollout ++ [mv0]
                 t_rollout := buf.t_rollout ++ [1] } : Buffers).a_rollout.length + (n + 2)
        = buf.a_rollout.length + (n + 1 + 2) := by
      simp only [List.length_append, List.length_singleton]
      omega
    rw [hc]

/-- The while loop consumes `mk_script n` in full: every step up to and
including the terminal one is recorded. -/
theorem taken_mk_script (n : Nat) : taken (mk_script n) = mk_script n := by
  induction n with
  | zero => simp [mk_script, taken, end_ts, mid_ts]
  | succ n ih =>
    have hs : mk_script (n + 1) = mid_ts :: mk_script n := by
      simp [mk_script, List.replicate_succ]
    rw [hs]
    simp [taken, mid_ts, ih]

theorem mk_script_length (n : Nat) : (mk_script n).length = n + 1 := by
  simp [mk_script]

/-! ## General helper lemmas -/

theorem lookup_none_of_not_mem : ∀ (l : List (String × ActVal)) (name : String),
    name ∉ l.map Prod.fst → l.lookup name = none := by
  intro l
  induction l with
  | nil => intro name h; rfl
  | cons p rest ih =>
    intro name h
    obtain ⟨k, v⟩ := p
    simp only [List.map_cons, List.mem_cons, not_or] at h
    have hbeq : (name == k) = false := beq_eq_false_iff_ne.mpr h.1
    simp only [List.lookup, hbeq]
    exact ih name h.2

theorem lookup_some_of_mem : ∀ (l : List (String × ActVal)) (name : String),
    name ∈ l.map Prod.fst → ∃ v, l.lookup name = some v := by
  intro l
  induction l with
  | nil => intro name h; simp at h
  | cons p rest ih =>
    intro name h
    obtain ⟨k, v⟩ := p
    by_cases he : name = k
    · subst he
      exact ⟨v, by simp [List.lookup]⟩
    · have hbeq : (name == k) = false := beq_eq_false_iff_ne.mpr he
      simp only [List.map_cons, List.mem_cons] at h
      rcases h with h | h
      · exact absurd h he
      · obtain ⟨w, hw⟩ := ih name h
        exact ⟨w, by simp only [List.lookup, hbeq]; exact hw⟩

/-- The action map returned by one `agent.step` call has exactly the channel
names of `self._actions`, in order. -/
theorem agent_step_keys (stream : Nat → Nat) : ∀ (acts : List (String × Gen)) (idx : Nat),
    (agent_step stream acts idx).1.map Prod.fst = acts.map Prod.fst := by
  intro acts
  induction acts with
  | nil => intro idx; rfl
  | cons p rest ih =>
    intro idx
    obtain ⟨n, g⟩ := p
    simp only [agent_step, List.map_cons]
    rw [ih]

/-- Every `agent.step` call advances the shared stream cursor by exactly one
draw per registered channel: a single sequentially shared source. -/
theorem agent_step_advance (stream : Nat → Nat) : ∀ (acts : List (String × Gen)) (idx : Nat),
    (agent_step stream acts idx).2 = idx + acts.length := by
  intro acts
  induction acts with
  | nil => intro idx; rfl
  | cons p rest ih =>
    intro idx
    obtain ⟨n, g⟩ := p
    have hidx : (g.sample stream idx).2 = idx + 1 := by
      cases g <;> rfl
    simp only [agent_step, hidx, ih, List.length_cons]
    omega

/-- After a too-short attempt the slot loop continues on the remaining scripts
with all five buffers reset to empty (lines 195-203 of `random_agent.py`). -/
theorem run_slot_short (stream : Nat → Nat) (acts : List (String × Gen))
    (sc : List Timestep) (rest : List (List Timestep)) (idx : Nat) (buf db : Buffers)
    (i2 : Nat) (h : run_attempt stream acts sc idx buf = .short db i2) :
    run_slot stream acts (sc :: rest) idx buf = run_slot stream acts rest i2 empty_buffers := by
  simp [run_slot, h]

/-- Any kept attempt has an action list of strictly more than 1000 entries. -/
theorem run_attempt_kept_len (stream : Nat → Nat) (acts : List (String × Gen)) :
    ∀ (sc : List Timestep) (idx : Nat) (buf b : Buffers) (i2 : Nat),
      run_attempt stream acts sc idx buf = .kept b i2 → 1000 < b.a_rollout.length := by
  intro sc
  induction sc with
  | nil => intro idx buf b i2 h; simp [run_attempt] at h
  | cons ts rest ih =>
    intro idx buf b i2 h
    simp only [run_attempt] at h
    split at h
    · exact absurd h (by simp)
    · split at h
      · exact absurd h (by simp)
      · split at h
        · split at h
          · exact absurd h (by simp)
          · rename_i hobs hmv hlast hlen
            obtain ⟨hb, hi⟩ := AttemptResult.kept.inj h
            subst hb
            simpa using Nat.lt_of_not_le (by simpa using hlen)
        · exact ih _ _ _ _ h

/-- Any discarded attempt has an action list of at most 1000 entries. -/
theorem run_attempt_short_len (stream : Nat → Nat) (acts : List (String × Gen)) :
    ∀ (sc : List Timestep) (idx : Nat) (buf db : Buffers) (i2 : Nat),
      run_attempt stream acts sc idx buf = .short db i2 → db.a_rollout.length ≤ 1000 := by
  intro sc
  induction sc with
  | nil => intro idx buf db i2 h; simp [run_attempt] at h
  | cons ts rest ih =>
    intro idx buf db i2 h
    simp only [run_attempt] at h
    split at h
    · exact absurd h (by simp)
    · split at h
      · exact absurd h (by simp)
      · split at h
        · split at h
          · rename_i hobs hmv hlast hlen
            obtain ⟨hb, hi⟩ := AttemptResult.short.inj h
            subst hb
            simpa using hlen
          · exact absurd h (by simp)
        · exact ih _ _ _ _ h

/-- A kept attempt's buffers extend the starting buffers with data drawn
solely from the attempt's own consumed steps: observations, rewards, discounts
and step types projected from `taken sc`, and the action list given by
`move_list` from the attempt's starting cursor, which ends in a duplicated
terminal value and has one entry more than the number of recorded steps. -/
theorem run_attempt_kept_shape (stream : Nat → Nat) (acts : List (String × Gen)) :
    ∀ (sc : List Timestep) (idx : Nat) (buf b : Buffers) (i2 : Nat),
      run_attempt stream acts sc idx buf = .kept b i2 →
        b.s_rollout.map Option.some
            = buf.s_rollout.map Option.some
              ++ (taken sc).map (fun ts => ts.observation "WORLD.RGB") ∧
        b.r_rollout = buf.r_rollout ++ (taken sc).map Timestep.reward ∧
        b.d_rollout = buf.d_rollout ++ (taken sc).map Timestep.discount ∧
        b.t_rollout = buf.t_rollout ++ (taken sc).map Timestep.step_type ∧
        b.a_rollout = buf.a_rollout ++ move_list stream acts idx sc ∧
        ∃ core mv, move_list stream acts idx sc = core ++ [mv, mv] ∧
          core.length + 1 = (taken sc).length := by
  intro sc
  induction sc with
  | nil => intro idx buf b i2 h; simp [run_attempt] at h
  | cons ts rest ih =>
    intro idx buf b i2 h
    rcases hobs : ts.observation "WORLD.RGB" with _ | o
    · simp only [run_attempt, hobs] at h
      exact absurd h (by simp)
    rcases hmv : (agent_step stream acts idx).1.lookup "MOVE" with _ | mv
    · simp only [run_attempt, hobs, hmv] at h
      exact absurd h (by simp)
    cases hlast : ts.is_last with
    | true =>
      simp only [run_attempt, hobs, hmv, hlast, if_true] at h
      split at h
      · exact absurd h (by simp)
      · rename_i hlen
        obtain ⟨hb, hi⟩ := AttemptResult.kept.inj h
        subst hb
        have htk : taken (ts :: rest) = [ts] := by simp [taken, hlast]
        have hml : move_list stream acts idx (ts :: rest) = [mv, mv] := by
          simp only [move_list, hmv, hlast, if_true]
        refine ⟨?_, ?_, ?_, ?_, ?_, [], mv, by simp [hml], by simp [htk]⟩
        · simp [htk, hobs]
        · simp [htk]
        · simp [htk]
        · simp [htk]
        · simp [hml, List.append_assoc]
    | false =>
      simp only [run_attempt, hobs, hmv, hlast, Bool.false_eq_true, if_false] at h
      obtain ⟨h1, h2, h3, h4, h5, core, mvl, hcml, hcl⟩ := ih _ _ _ _ h
      have htk : taken (ts :: rest) = ts :: taken rest := by
        simp [taken, hlast]
      have hml : move_list stream acts idx (ts :: rest)
          = mv :: move_list stream acts (agent_step stream acts idx).2 rest := by
        simp only [move_list, hmv, hlast, Bool.false_eq_true, if_false]
      refine ⟨?_, ?_, ?_, ?_, ?_, mv :: core, mvl, ?_, ?_⟩
      · rw [h1]
        simp [htk, hobs, List.append_assoc]
      · rw [h2]
        simp [htk, List.append_assoc]
      · rw [h3]
        simp [htk, List.append_assoc]
      · rw [h4]
        simp [htk, List.append_assoc]
      · rw [h5]
        simp [hml, List.append_assoc]
      · rw [hml, hcml]
        simp
      · simp only [htk, List.length_cons]
        omega

/-- Every archive saved by the slot loop is the result of one attempt run from
empty buffers somewhere in the script list. -/
theorem run_slot_saved_shape (stream : Nat → Nat) (acts : List (String × Gen)) :
    ∀ (scripts : List (List Timestep)) (idx : Nat) (b : Buffers) (i2 : Nat)
      (rest : List (List Timestep)),
      run_slot stream acts scripts idx empty_buffers = .saved b i2 rest →
      ∃ sc idx0, sc ∈ scripts ∧
        run_attempt stream acts sc idx0 empty_buffers = .kept b i2 := by
  intro scripts
  induction scripts with
  | nil => intro idx b i2 rest h; simp [run_slot] at h
  | cons sc more ih =>
    intro idx b i2 rest h
    simp only [run_slot] at h
    split at h
    · rename_i b' i2' hk
      obtain ⟨hb, hi, hr⟩ := SlotResult.saved.inj h
      subst hb; subst hi
      exact ⟨sc, idx, by simp, hk⟩
    · rename_i db i2' hsh
      obtain ⟨sc', idx0, hm, hk⟩ := ih _ _ _ _ h
      exact ⟨sc', idx0, by simp [hm], hk⟩
    · exact absurd h (by simp)
    · exact absurd h (by simp)

/-- Attempts over scripts of the same shape, from buffers with equal action
lists, produce results that agree on all action data and the stream cursor. -/
theorem run_attempt_shape_eq (stream : Nat → Nat) (acts : List (String × Gen)) :
    ∀ (sc1 sc2 : List Timestep), List.Forall₂ same_shape sc1 sc2 →
      ∀ (idx : Nat) (buf1 buf2 : Buffers), buf1.a_rollout = buf2.a_rollout →
        (run_attempt stream acts sc1 idx buf1).acts_eq
          (run_attempt stream acts sc2 idx buf2) := by
  intro sc1 sc2 hf
  induction hf with
  | nil =>
    intro idx buf1 buf2 hab
    simp [run_attempt, AttemptResult.acts_eq]
  | cons hts hrest ih =>
    rename_i ts1 ts2 l1 l2
    intro idx buf1 buf2 hab
    obtain ⟨hlast, ho1, ho2⟩ := hts
    obtain ⟨o1, ho1e⟩ := Option.isSome_iff_exists.mp ho1
    obtain ⟨o2, ho2e⟩ := Option.isSome_iff_exists.mp ho2
    rcases hmv : (agent_step stream acts idx).1.lookup "MOVE" with _ | mv
    · simp only [run_attempt, ho1e, ho2e, hmv]
      simp [AttemptResult.acts_eq]
    · cases hl2 : ts2.is_last with
      | true =>
        have hl1 : ts1.is_last = true := by rw [hlast, hl2]
        simp only [run_attempt, ho1e, ho2e, hmv, hl1, hl2, if_true]
        split_ifs with h1 h2
        · exact ⟨by simp [hab], rfl⟩
        · exfalso
          simp only [List.length_append, List.length_singleton] at h1 h2
          rw [hab] at h1
          omega
        · exfalso
          rename_i h2
          simp only [List.length_append, List.length_singleton] at h1 h2
          rw [hab] at h1
          omega
        · exact ⟨by simp [hab], rfl⟩
      | false =>
        have hl1 : ts1.is_last = false := by rw [hlast, hl2]
        simp only [run_attempt, ho1e, ho2e, hmv, hl1, hl2, Bool.false_eq_true, if_false]
        apply ih
        simp [hab]

/-- Slot runs over script lists of the same shape agree on all action data. -/
theorem run_slot_shape_eq (stream : Nat → Nat) (acts : List (String × Gen)) :
    ∀ (s1 s2 : List (List Timestep)), List.Forall₂ (List.Forall₂ same_shape) s1 s2 →
      ∀ idx, (run_slot stream acts s1 idx empty_buffers).acts_eq
        (run_slot stream acts s2 idx empty_buffers) := by
  intro s1 s2 hf
  induction hf with
  | nil => intro idx; simp [run_slot, SlotResult.acts_eq]
  | cons hsc hrest ih =>
    rename_i sc1 sc2 r1 r2
    intro idx
    have hatt := run_attempt_shape_eq stream acts sc1 sc2 hsc idx empty_buffers empty_buffers rfl
    rcases h1 : run_attempt stream acts sc1 idx empty_buffers with ⟨b1, i1⟩ | ⟨db1, i1⟩ | e1 | i1 <;>
      rcases h2 : run_attempt stream acts sc2 idx empty_buffers with ⟨b2, i2⟩ | ⟨db2, i2⟩ | e2 | i2 <;>
      rw [h1, h2] at hatt <;>
      simp only [AttemptResult.acts_eq] at hatt <;>
      simp only [run_slot, h1, h2] <;>
      first
        | exact hatt.elim
        | exact ⟨hatt.1, hatt.2, hrest⟩
        | (rw [hatt.2]; exact ih i2)
        | simp [SlotResult.acts_eq, hatt]

/-- Episode loops over script lists of the same shape produce archives with
identical episode indices and identical action arrays. -/
theorem run_episodes_shape_eq (stream : Nat → Nat) (acts : List (String × Gen)) :
    ∀ (count i : Nat) (s1 s2 : List (List Timestep)) (idx : Nat),
      List.Forall₂ (List.Forall₂ same_shape) s1 s2 →
      (run_episodes stream acts count i s1 idx).map (fun p => (p.1, p.2.a_rollout))
        = (run_episodes stream acts count i s2 idx).map (fun p => (p.1, p.2.a_rollout)) := by
  intro count
  induction count with
  | zero => intro i s1 s2 idx hf; rfl
  | succ c ih =>
    intro i s1 s2 idx hf
    have hslot := run_slot_shape_eq stream acts s1 s2 hf idx
    rcases h1 : run_slot stream acts s1 idx empty_buffers with ⟨b1, i1, r1⟩ | e1 | i1 <;>
      rcases h2 : run_slot stream acts s2 idx empty_buffers with ⟨b2, i2, r2⟩ | e2 | i2 <;>
      rw [h1, h2] at hslot <;>
      simp only [SlotResult.acts_eq] at hslot <;>
      simp only [run_episodes, h1, h2] <;>
      first
        | exact hslot.elim
        | rfl
        | (simp only [List.map_cons]
           rw [hslot.1, hslot.2.1, ih (i + 1) r1 r2 i2 hslot.2.2])

/-- The two fixed scripts of equal length have the same shape. -/
theorem forall2_mk (n : Nat) : List.Forall₂ same_shape (mk_script n) (mk_script2 n) := by
  have hend : same_shape end_ts end_ts2 := ⟨rfl, rfl, rfl⟩
  induction n with
  | zero =>
    simp only [mk_script, mk_script2, List.replicate, List.nil_append]
    exact List.Forall₂.cons hend List.Forall₂.nil
  | succ n ih =>
    have h1 : mk_script (n + 1) = mid_ts :: mk_script n := by
      simp [mk_script, List.replicate_succ]
    have h2 : mk_script2 (n + 1) = mid_ts2 :: mk_script2 n := by
      simp [mk_script2, List.replicate_succ]
    rw [h1, h2]
    exact List.Forall₂.cons ⟨rfl, rfl, rfl⟩ ih

/-- Sampler bounds: any `Gen.int32 lo hi` entry of the sampler list produces,
at any cursor position, an integer value in `[lo, hi]`. -/
theorem agent_step_int32_bounds (stream : Nat → Nat) :
    ∀ (acts : List (String × Gen)) (idx k : Nat) (name : String) (lo hi : Int),
      acts.get? k = some (name, Gen.int32 lo hi) → lo ≤ hi →
      ∃ v, (agent_step stream acts idx).1.get? k = some (name, ActVal.intV v) ∧
        lo ≤ v ∧ v ≤ hi := by
  intro acts
  induction acts with
  | nil => intro idx k name lo hi hk hle; simp at hk
  | cons p rest ih =>
    intro idx k name lo hi hk hle
    obtain ⟨n, g⟩ := p
    cases k with
    | zero =>
      simp only [List.get?] at hk
      obtain ⟨hn, hg⟩ := Prod.mk.inj (Option.some.inj hk)
      subst hn; subst hg
      have hpos : 0 < hi + 1 - lo := by omega
      have h0 : 0 ≤ (stream idx : Int) % (hi + 1 - lo) :=
        Int.emod_nonneg _ (ne_of_gt hpos)
      have hlt : (stream idx : Int) % (hi + 1 - lo) < hi + 1 - lo :=
        Int.emod_lt_of_pos _ hpos
      refine ⟨lo + (stream idx : Int) % (hi + 1 - lo), ?_, by omega, by omega⟩
      simp [agent_step, Gen.sample]
    | succ k' =>
      simp only [List.get?] at hk
      have := ih ((g.sample stream idx).2) k' name lo hi hk hle
      simpa [agent_step] using this

/-- Concrete evaluation: a 1000-step scripted attempt is kept. -/
theorem run_attempt_script999 :
    run_attempt stream0 acts0 (mk_script 999) 0 empty_buffers
      = .kept (final_buffers empty_buffers 999) 1001 := by
  rw [run_attempt_mk_script]
  norm_num [empty_buffers]

/-- Concrete evaluation: an 11-step scripted attempt is discarded. -/
theorem run_attempt_script10 :
    run_attempt stream0 acts0 (mk_script 10) 0 empty_buffers
      = .short (final_buffers empty_buffers 10) 12 := by
  rw [run_attempt_mk_script]
  norm_num [empty_buffers]

/-- Concrete evaluation: a 1001-step scripted attempt is kept. -/
theorem run_attempt_script1000 :
    run_attempt stream0 acts0 (mk_script 1000) 0 empty_buffers
      = .kept (final_buffers empty_buffers 1000) 1002 := by
  rw [run_attempt_mk_script]
  norm_num [empty_buffers]

/-- Concrete evaluation: a 1000-step scripted attempt starting at cursor 12 is
kept. -/
theorem run_attempt_script999_later :
    run_attempt stream0 acts0 (mk_script 999) 12 empty_buffers
      = .kept (final_buffers empty_buffers 999) 1013 := by
  rw [run_attempt_mk_script]
  norm_num [empty_buffers]

/-- A kept attempt ends its slot immediately with a saved archive. -/
theorem run_slot_cons_kept (stream : Nat → Nat) (acts : List (String × Gen))
    (sc : List Timestep) (rest : List (List Timestep)) (idx : Nat) (buf b : Buffers)
    (i2 : Nat) (h : run_attempt stream acts sc idx buf = .kept b i2) :
    run_slot stream acts (sc :: rest) idx buf = .saved b i2 rest := by
  simp [run_slot, h]

/-- Concrete evaluation: a slot that discards one short attempt and then keeps
a long one. -/
theorem run_slot_script10_999 :
    run_slot stream0 acts0 [mk_script 10, mk_script 999] 0 empty_buffers
      = .saved (final_buffers empty_buffers 999) 1013 [] := by
  rw [run_slot_short stream0 acts0 (mk_script 10) [mk_script 999] 0 empty_buffers
      (final_buffers empty_buffers 10) 12 run_attempt_script10]
  exact run_slot_cons_kept stream0 acts0 (mk_script 999) [] 12 empty_buffers
    (final_buffers empty_buffers 999) 1013 run_attempt_script999_later

/-- Every unsupported spec entry ends up in the warned (skipped) list built at
agent construction. -/
theorem agent_actions_warned : ∀ (spec : List ActionSpecEntry) (e : ActionSpecEntry),
    e ∈ spec → e.dtype = DType.other → e ∈ (agent_actions spec).2 := by
  intro spec
  induction spec with
  | nil => intro e h; simp at h
  | cons e0 rest ih =>
    intro e hmem hd
    rcases List.mem_cons.mp hmem with he | he
    · subst he
      simp [agent_actions, hd]
    · have hin := ih e he hd
      cases hd0 : e0.dtype <;> simp [agent_actions, hd0, hin]

/-- If every spec entry carrying a given name is unsupported, the name appears
nowhere among the sampler channel names. -/
theorem agent_actions_no_key : ∀ (spec : List ActionSpecEntry) (name : String),
    (∀ e ∈ spec, e.name = name → e.dtype = DType.other) →
    name ∉ (agent_actions spec).1.map Prod.fst := by
  intro spec
  induction spec with
  | nil => intro name h; simp [agent_actions]
  | cons e rest ih =>
    intro name h
    have hrest := ih name (fun e' he' => h e' (List.mem_cons_of_mem _ he'))
    cases hd : e.dtype with
    | int32 =>
      simp only [agent_actions, hd, List.map_cons, List.mem_cons, not_or]
      refine ⟨?_, hrest⟩
      intro heq
      have hdo := h e (by simp) heq.symm
      rw [hd] at hdo
      exact absurd hdo (by simp)
    | float64 =>
      simp only [agent_actions, hd, List.map_cons, List.mem_cons, not_or]
      refine ⟨?_, hrest⟩
      intro heq
      have hdo := h e (by simp) heq.symm
      rw [hd] at hdo
      exact absurd hdo (by simp)
    | other => simpa [agent_actions, hd] using hrest

/-! ## Claim theorems -/

/-- C1: the Dispatcher does compute the per-thread quota `rpt = R // T + 1`
(so `rpt 10 3 = 4`), but the spawned external invocation is configured with
`--num_episodes` equal to the total rollout count, not the quota: at
`rollouts = 10, threads = 3` the command carries `--num_episodes=10` and no
`--num_episodes=4`, although `rpt` is computed and passed to
`_threaded_generation`. -/
theorem C1_quota_computed_but_spawn_uses_total :
    rpt 10 3 = 4 ∧
      "--num_episodes=10" ∈ threaded_generation_cmd 10 (rpt 10 3) 0 ∧
      "--num_episodes=4" ∉ threaded_generation_cmd 10 (rpt 10 3) 0 := by
  decide

/-- C3: the Dispatcher creates distinct directories `<root>/thread_i`, but the
commands spawned for distinct thread indices are identical — the literal
command contains neither the thread directory nor any `--env_seed` flag — and
the Collector's hardcoded archive directory therefore coincides for every
thread: outputs are not written to disjoint directories. -/
theorem C3_threads_share_one_archive_dir :
    thread_dir "root" 0 ≠ thread_dir "root" 1 ∧
      threaded_generation_cmd 10 4 0 = threaded_generation_cmd 10 4 1 ∧
      threaded_generation_cmd 10 4 0
        = ["bazel", "run", "-c", "opt", "random_agent", "--",
           "--level_name=chase_eat", "--num_episodes=10"] ∧
      spawned_archive_dir 0 = spawned_archive_dir 1 ∧
      spawned_archive_dir 0
        = "/Users/qingshi/docs/Projects/sp24/lab2d/chase_eat_may8/thread_0" := by
  refine ⟨by decide, rfl, by decide, rfl, by decide⟩

/-- C2 counterexample: an attempt of exactly 1000 recorded steps is persisted
(`kept`) although its observation, reward, discount and step-type sequences
each hold exactly 1000 entries, not strictly more than 1000; only the action
list, which carries the duplicated terminal entry, has 1001 entries. -/
theorem C2_persisted_with_1000_entry_buffer :
    run_attempt stream0 acts0 (mk_script 999) 0 empty_buffers
        = AttemptResult.kept (final_buffers empty_buffers 999) 1001 ∧
      (final_buffers empty_buffers 999).s_rollout.length = 1000 ∧
      (final_buffers empty_buffers 999).r_rollout.length = 1000 ∧
      (final_buffers empty_buffers 999).d_rollout.length = 1000 ∧
      (final_buffers empty_buffers 999).t_rollout.length = 1000 ∧
      (final_buffers empty_buffers 999).a_rollout.length = 1001 := by
  refine ⟨run_attempt_script999, ?_, ?_, ?_, ?_, ?_⟩ <;>
    · simp only [final_buffers, empty_buffers, List.nil_append, List.length_append,
        List.length_replicate, List.length_singleton]
      try omega

/-- C2 (amended): an episode attempt is persisted if and only if its action
list — which includes the duplicated terminal entry, so it exceeds the
per-step entry count by one — holds strictly more than 1000 entries; an
attempt whose action list has at most 1000 entries is discarded and the slot
loop restarts the same episode slot with empty buffers. -/
theorem C2_persist_iff_action_list_exceeds_1000 :
    ∀ (stream : Nat → Nat) (acts : List (String × Gen)) (sc : List Timestep)
      (idx : Nat) (buf : Buffers),
      (∀ b i2, run_attempt stream acts sc idx buf = .kept b i2 →
        1000 < b.a_rollout.length) ∧
      (∀ db i2, run_attempt stream acts sc idx buf = .short db i2 →
        db.a_rollout.length ≤ 1000) ∧
      (∀ db i2 rest, run_attempt stream acts sc idx buf = .short db i2 →
        run_slot stream acts (sc :: rest) idx buf
          = run_slot stream acts rest i2 empty_buffers) := by
  intro stream acts sc idx buf
  exact ⟨fun b i2 h => run_attempt_kept_len stream acts sc idx buf b i2 h,
         fun db i2 h => run_attempt_short_len stream acts sc idx buf db i2 h,
         fun db i2 rest h => run_slot_short stream acts sc rest idx buf db i2 h⟩

/-- Witness for the amended C2 theorem at concrete inputs: a kept 1000-step
attempt with a 1001-entry action list, a discarded 11-step attempt with a
12-entry action list, and the slot restart after the discard. -/
theorem C2_persist_iff_action_list_exceeds_1000_witness :
    1000 < (final_buffers empty_buffers 999).a_rollout.length ∧
      (final_buffers empty_buffers 10).a_rollout.length ≤ 1000 ∧
      run_slot stream0 acts0 [mk_script 10] 0 empty_buffers
        = run_slot stream0 acts0 [] 12 empty_buffers :=
  ⟨(C2_persist_iff_action_list_exceeds_1000 stream0 acts0 (mk_script 999) 0
      empty_buffers).1 _ _ run_attempt_script999,
   (C2_persist_iff_action_list_exceeds_1000 stream0 acts0 (mk_script 10) 0
      empty_buffers).2.1 _ _ run_attempt_script10,
   (C2_persist_iff_action_list_exceeds_1000 stream0 acts0 (mk_script 10) 0
      empty_buffers).2.2 _ _ [] run_attempt_script10⟩

/-- C4: a kept attempt of exactly N recorded steps yields observation,
reward, discount and step-type arrays of length N and an action array of
length N + 1, whose final entry duplicates the entry before it: on the
terminal step one further action is sampled and only an action value is
appended a second time, with no observation, reward, discount or step-type
entry for the extra step. -/
theorem C4_terminal_appends_action_only :
    ∀ (stream : Nat → Nat) (acts : List (String × Gen)) (sc : List Timestep)
      (idx : Nat) (b : Buffers) (i2 : Nat),
      run_attempt stream acts sc idx empty_buffers = .kept b i2 →
        b.s_rollout.length = (taken sc).length ∧
        b.r_rollout.length = (taken sc).length ∧
        b.d_rollout.length = (taken sc).length ∧
        b.t_rollout.length = (taken sc).length ∧
        b.a_rollout.length = (taken sc).length + 1 ∧
        ∃ mv, b.a_rollout.getLast? = some mv ∧
          b.a_rollout.dropLast.getLast? = some mv := by
  intro stream acts sc idx b i2 h
  obtain ⟨h1, h2, h3, h4, h5, core, mv, hml, hcl⟩ :=
    run_attempt_kept_shape stream acts sc idx empty_buffers b i2 h
  simp only [empty_buffers, List.map_nil, List.nil_append] at h1 h2 h3 h4 h5
  have hs : b.s_rollout.length = (taken sc).length := by
    have := congrArg List.length h1
    simpa using this
  have ha : b.a_rollout = (core ++ [mv]) ++ [mv] := by
    rw [h5, hml]
    simp
  refine ⟨hs, by rw [h2]; simp, by rw [h3]; simp, by rw [h4]; simp, ?_, mv, ?_, ?_⟩
  · rw [h5, hml]
    simp only [List.length_append, List.length_cons, List.length_nil]
    omega
  · rw [ha]
    exact List.getLast?_concat _
  · rw [ha, List.dropLast_concat]
    exact List.getLast?_concat _

/-- Witness for C4 at the spec's example size: a kept attempt of 1001 recorded
steps gives four arrays of length 1001 and an action array of length 1002
ending in a duplicated value. -/
theorem C4_terminal_appends_action_only_witness :
    (final_buffers empty_buffers 1000).s_rollout.length = (taken (mk_script 1000)).length ∧
      (final_buffers empty_buffers 1000).a_rollout.length
        = (taken (mk_script 1000)).length + 1 ∧
      (taken (mk_script 1000)).length = 1001 ∧
      ∃ mv, (final_buffers empty_buffers 1000).a_rollout.getLast? = some mv ∧
        (final_buffers empty_buffers 1000).a_rollout.dropLast.getLast? = some mv := by
  obtain ⟨h1, h2, h3, h4, h5, h6⟩ :=
    C4_terminal_appends_action_only stream0 acts0 (mk_script 1000) 0 _ _
      run_attempt_script1000
  exact ⟨h1, h5, by rw [taken_mk_script, mk_script_length], h6⟩

/-- C5: every value sampled for an int32 channel with bounds `[lo, hi]`
(with `lo ≤ hi`, as required by the underlying `randint`) lies in
`[lo, hi]` inclusive, at every position of the sampler list and at every
stream cursor, hence across all draws of a run. -/
theorem C5_int32_samples_in_bounds (spec : List ActionSpecEntry) (stream : Nat → Nat)
    (idx k : Nat) (name : String) (lo hi : Int)
    (hk : (agent_actions spec).1.get? k = some (name, Gen.int32 lo hi))
    (hle : lo ≤ hi) :
    ∃ v, (agent_step stream (agent_actions spec).1 idx).1.get? k
        = some (name, ActVal.intV v) ∧ lo ≤ v ∧ v ≤ hi :=
  agent_step_int32_bounds stream (agent_actions spec).1 idx k name lo hi hk hle

/-- Witness for C5 on the concrete MOVE channel with bounds `[0, 4]`. -/
theorem C5_int32_samples_in_bounds_witness :
    ∃ v, (agent_step stream0 (agent_actions spec0).1 0).1.get? 0
        = some ("MOVE", ActVal.intV v) ∧ 0 ≤ v ∧ v ≤ 4 :=
  C5_int32_samples_in_bounds spec0 stream0 0 0 "MOVE" 0 4 rfl (by decide)

/-- C6: the random source is created once from the agent seed at construction
(`run_collector` builds `random_state agent_seed` and threads one cursor), each
`agent.step` advances that single shared cursor by one draw per channel, and —
for a fixed agent seed — two runs over episode scripts of identical shape
(same lengths and terminal positions, arbitrary differing contents) produce
identical action sequences in their archives. -/
theorem C6_single_stream_deterministic_replay :
    (∀ (stream : Nat → Nat) (acts : List (String × Gen)) (idx : Nat),
      (agent_step stream acts idx).2 = idx + acts.length) ∧
    (∀ (agent_seed : Nat) (spec : List ActionSpecEntry) (num_episodes : Nat)
      (s1 s2 : List (List Timestep)),
      List.Forall₂ (List.Forall₂ same_shape) s1 s2 →
      (run_collector agent_seed spec num_episodes s1).map (fun p => (p.1, p.2.a_rollout))
        = (run_collector agent_seed spec num_episodes s2).map
            (fun p => (p.1, p.2.a_rollout))) := by
  constructor
  · exact agent_step_advance
  · intro seed spec n s1 s2 hf
    exact run_episodes_shape_eq (random_state seed) (agent_actions spec).1 n 0 s1 s2 0 hf

/-- Witness for C6: a concrete cursor advance, and two concrete 1000-step runs
differing in frames and rewards but equal in shape, with equal action data. -/
theorem C6_single_stream_deterministic_replay_witness :
    (agent_step stream0 acts0 5).2 = 5 + acts0.length ∧
      (run_collector 0 spec0 1 [mk_script 999]).map (fun p => (p.1, p.2.a_rollout))
        = (run_collector 0 spec0 1 [mk_script2 999]).map (fun p => (p.1, p.2.a_rollout)) :=
  ⟨C6_single_stream_deterministic_replay.1 stream0 acts0 5,
   C6_single_stream_deterministic_replay.2 0 spec0 1 [mk_script 999] [mk_script2 999]
     (List.Forall₂.cons (forall2_mk 999) List.Forall₂.nil)⟩

/-- C7: a channel all of whose spec entries have an unsupported dtype is
warned about at construction (it lands in the skipped list) and is absent from
every action mapping the agent returns: the lookup of its name yields none at
every step. -/
theorem C7_unsupported_channels_skipped (spec : List ActionSpecEntry) (name : String)
    (h : ∀ e ∈ spec, e.name = name → e.dtype = DType.other) :
    (∀ e ∈ spec, e.name = name → e ∈ (agent_actions spec).2) ∧
    (∀ (stream : Nat → Nat) (idx : Nat),
      (agent_step stream (agent_actions spec).1 idx).1.lookup name = none) := by
  constructor
  · intro e he hn
    exact agent_actions_warned spec e he (h e he hn)
  · intro stream idx
    apply lookup_none_of_not_mem
    rw [agent_step_keys]
    exact agent_actions_no_key spec name h

/-- Witness for C7: the PUSH channel of `specW` is skipped with a warning and
contributes no action at a concrete step. -/
theorem C7_unsupported_channels_skipped_witness :
    ((⟨"PUSH", DType.other, 0, 0⟩ : ActionSpecEntry) ∈ (agent_actions specW).2) ∧
      (agent_step stream0 (agent_actions specW).1 3).1.lookup "PUSH" = none := by
  have hall : ∀ e ∈ specW, e.name = "PUSH" → e.dtype = DType.other := by
    intro e he hn
    rcases List.mem_cons.mp he with h | h
    · subst h; rfl
    · simp only [specW, List.mem_singleton] at h
      subst h
      exact absurd hn (by decide)
  exact ⟨(C7_unsupported_channels_skipped specW "PUSH" hall).1 _
      (List.mem_cons_self _ _) rfl,
    (C7_unsupported_channels_skipped specW "PUSH" hall).2 stream0 3⟩

/-- C9: the episode loop reads the observation it records from the fixed key
WORLD.RGB regardless of the `--observation` flag: wrapping the environment
with channel WORLD.RGB changes nothing, while wrapping it with any other
channel makes the very first recorded step fail its WORLD.RGB lookup — the
flag only selects which channel the wrapper exposes. -/
theorem C9_observation_key_fixed (stream : Nat → Nat) (acts : List (String × Gen)) :
    (∀ (sc : List Timestep) (idx : Nat) (buf : Buffers),
      run_attempt stream acts (wrap_script "WORLD.RGB" sc) idx buf
        = run_attempt stream acts sc idx buf) ∧
    (∀ (flag : String) (ts : Timestep) (rest : List Timestep) (idx : Nat) (buf : Buffers),
      flag ≠ "WORLD.RGB" →
      run_attempt stream acts (wrap_script flag (ts :: rest)) idx buf
        = .err .key_error_obs) := by
  constructor
  · intro sc
    induction sc with
    | nil => intro idx buf; rfl
    | cons ts rest ih =>
      intro idx buf
      have hw : wrap_script "WORLD.RGB" (ts :: rest)
          = wrap_timestep "WORLD.RGB" ts :: wrap_script "WORLD.RGB" rest := rfl
      rw [hw]
      have hobs_eq : (wrap_timestep "WORLD.RGB" ts).observation "WORLD.RGB"
          = ts.observation "WORLD.RGB" := by
        simp [wrap_timestep, restrict_obs]
      have hlast_eq : (wrap_timestep "WORLD.RGB" ts).is_last = ts.is_last := rfl
      have hrew : (wrap_timestep "WORLD.RGB" ts).reward = ts.reward := rfl
      have hdis : (wrap_timestep "WORLD.RGB" ts).discount = ts.discount := rfl
      have hst : (wrap_timestep "WORLD.RGB" ts).step_type = ts.step_type := rfl
      rcases hobs : ts.observation "WORLD.RGB" with _ | o <;> rw [hobs] at hobs_eq
      · simp only [run_attempt, hobs_eq, hobs]
      · rcases hmv : (agent_step stream acts idx).1.lookup "MOVE" with _ | mv
        · simp only [run_attempt, hobs_eq, hobs, hmv]
        · cases hl : ts.is_last with
          | true =>
            rw [hl] at hlast_eq
            simp only [run_attempt, hobs_eq, hobs, hmv, hlast_eq, hl, if_true,
              hrew, hdis, hst]
          | false =>
            rw [hl] at hlast_eq
            simp only [run_attempt, hobs_eq, hobs, hmv, hlast_eq, hl,
              Bool.false_eq_true, if_false, hrew, hdis, hst]
            exact ih _ _
  · intro flag ts rest idx buf hne
    have hobs : (wrap_timestep flag ts).observation "WORLD.RGB" = none := by
      simp only [wrap_timestep, restrict_obs]
      rw [if_neg (fun h => hne h.symm)]
    have hw : wrap_script flag (ts :: rest)
        = wrap_timestep flag ts :: wrap_script flag rest := rfl
    rw [hw]
    simp only [run_attempt, hobs]

/-- Witness for C9: wrapping a concrete one-step script with WORLD.RGB is the
identity, and wrapping it with the channel name RGB fails the first lookup. -/
theorem C9_observation_key_fixed_witness :
    run_attempt stream0 acts0 (wrap_script "WORLD.RGB" (mk_script 0)) 0 empty_buffers
        = run_attempt stream0 acts0 (mk_script 0) 0 empty_buffers ∧
      run_attempt stream0 acts0 (wrap_script "RGB" (end_ts :: [])) 0 empty_buffers
        = .err .key_error_obs :=
  ⟨(C9_observation_key_fixed stream0 acts0).1 (mk_script 0) 0 empty_buffers,
   (C9_observation_key_fixed stream0 acts0).2 "RGB" end_ts [] 0 empty_buffers (by decide)⟩

/-- C10: only the MOVE channel is recorded; when no supported channel is named
MOVE, the very first step fails its `action["MOVE"]` lookup and the run aborts
with a key error, while the presence of a MOVE channel makes that error branch
unreachable on every script. -/
theorem C10_move_channel_required (spec : List ActionSpecEntry) (stream : Nat → Nat) :
    ("MOVE" ∉ (agent_actions spec).1.map Prod.fst →
      ∀ (ts : Timestep) (rest : List Timestep) (idx : Nat) (buf : Buffers) (o : Nat),
        ts.observation "WORLD.RGB" = some o →
        run_attempt stream (agent_actions spec).1 (ts :: rest) idx buf
          = .err .key_error_move) ∧
    ("MOVE" ∈ (agent_actions spec).1.map Prod.fst →
      ∀ (sc : List Timestep) (idx : Nat) (buf : Buffers),
        run_attempt stream (agent_actions spec).1 sc idx buf
          ≠ .err .key_error_move) := by
  constructor
  · intro hnm ts rest idx buf o hobs
    have hlk : (agent_step stream (agent_actions spec).1 idx).1.lookup "MOVE" = none := by
      apply lookup_none_of_not_mem
      rw [agent_step_keys]
      exact hnm
    simp only [run_attempt, hobs, hlk]
  · intro hm sc
    induction sc with
    | nil => intro idx buf; simp [run_attempt]
    | cons ts rest ih =>
      intro idx buf
      rcases hobs : ts.observation "WORLD.RGB" with _ | o
      · simp only [run_attempt, hobs]
        simp
      · obtain ⟨mv, hmv⟩ : ∃ v,
            (agent_step stream (agent_actions spec).1 idx).1.lookup "MOVE" = some v := by
          apply lookup_some_of_mem
          rw [agent_step_keys]
          exact hm
        cases hl : ts.is_last with
        | true =>
          simp only [run_attempt, hobs, hmv, hl, if_true]
          split <;> simp
        | false =>
          simp only [run_attempt, hobs, hmv, hl, Bool.false_eq_true, if_false]
          exact ih _ _

/-- Witness for C10: a spec without a MOVE channel aborts on the first step,
the spec with a MOVE channel never hits that error on a concrete script. -/
theorem C10_move_channel_required_witness :
    run_attempt stream0 (agent_actions spec_jump).1 [end_ts] 0 empty_buffers
        = .err .key_error_move ∧
      run_attempt stream0 (agent_actions spec0).1 [end_ts] 0 empty_buffers
        ≠ .err .key_error_move :=
  ⟨(C10_move_channel_required spec_jump stream0).1 (by decide) end_ts [] 0 empty_buffers 7
      (by simp [end_ts, mid_ts]),
   (C10_move_channel_required spec0 stream0).2 (by decide) [end_ts] 0 empty_buffers⟩

/-- C8: after a too-short discard the slot loop continues with all five buffer
sequences reset to empty, and every archive saved by the slot loop is built
from its own attempt alone, run from empty buffers: its five arrays are
exactly the projections of that attempt's consumed steps and of its own fresh
MOVE draws, so no entry of a discarded partial buffer reaches a later
archive. -/
theorem C8_discard_resets_buffers_and_archives_are_pure (stream : Nat → Nat)
    (acts : List (String × Gen)) :
    (∀ (sc : List Timestep) (rest : List (List Timestep)) (idx : Nat)
      (buf db : Buffers) (i2 : Nat),
      run_attempt stream acts sc idx buf = .short db i2 →
      run_slot stream acts (sc :: rest) idx buf
          = run_slot stream acts rest i2 empty_buffers ∧
      empty_buffers.s_rollout = [] ∧ empty_buffers.r_rollout = [] ∧
      empty_buffers.d_rollout = [] ∧ empty_buffers.a_rollout = [] ∧
      empty_buffers.t_rollout = []) ∧
    (∀ (scripts : List (List Timestep)) (idx : Nat) (b : Buffers) (i2 : Nat)
      (rest : List (List Timestep)),
      run_slot stream acts scripts idx empty_buffers = .saved b i2 rest →
      ∃ sc idx0, sc ∈ scripts ∧
        run_attempt stream acts sc idx0 empty_buffers = .kept b i2 ∧
        b.s_rollout.map Option.some
          = (taken sc).map (fun ts => ts.observation "WORLD.RGB") ∧
        b.r_rollout = (taken sc).map Timestep.reward ∧
        b.d_rollout = (taken sc).map Timestep.discount ∧
        b.t_rollout = (taken sc).map Timestep.step_type ∧
        b.a_rollout = move_list stream acts idx0 sc) := by
  constructor
  · intro sc rest idx buf db i2 h
    exact ⟨run_slot_short stream acts sc rest idx buf db i2 h, rfl, rfl, rfl, rfl, rfl⟩
  · intro scripts idx b i2 rest h
    obtain ⟨sc, idx0, hmem, hk⟩ :=
      run_slot_saved_shape stream acts scripts idx b i2 rest h
    obtain ⟨h1, h2, h3, h4, h5, hex⟩ :=
      run_attempt_kept_shape stream acts sc idx0 empty_buffers b i2 hk
    simp only [empty_buffers, List.map_nil, List.nil_append] at h1 h2 h3 h4 h5
    exact ⟨sc, idx0, hmem, hk, h1, h2, h3, h4, h5⟩

/-- Witness for C8: a concrete slot run that discards an 11-step attempt
(continuing with empty buffers) and then saves an archive whose arrays come
from its own 1000-step attempt. -/
theorem C8_discard_resets_buffers_and_archives_are_pure_witness :
    run_slot stream0 acts0 [mk_script 10] 0 empty_buffers
        = run_slot stream0 acts0 [] 12 empty_buffers ∧
      ∃ sc idx0, sc ∈ [mk_script 10, mk_script 999] ∧
        run_attempt stream0 acts0 sc idx0 empty_buffers
          = .kept (final_buffers empty_buffers 999) 1013 ∧
        (final_buffers empty_buffers 999).s_rollout.map Option.some
          = (taken sc).map (fun ts => ts.observation "WORLD.RGB") ∧
        (final_buffers empty_buffers 999).r_rollout = (taken sc).map Timestep.reward ∧
        (final_buffers empty_buffers 999).d_rollout = (taken sc).map Timestep.discount ∧
        (final_buffers empty_buffers 999).t_rollout = (taken sc).map Timestep.step_type ∧
        (final_buffers empty_buffers 999).a_rollout = move_list stream0 acts0 idx0 sc :=
  ⟨((C8_discard_resets_buffers_and_archives_are_pure stream0 acts0).1
      (mk_script 10) [] 0 empty_buffers _ _ run_attempt_script10).1,
   (C8_discard_resets_buffers_and_archives_are_pure stream0 acts0).2
      [mk_script 10, mk_script 999] 0 _ _ [] run_slot_script10_999⟩

end Lab2d
